import Mathlib

/-!
# The uzbl internal event-manager bridge (`src/em.c`)

A shallow embedding of `uzbl_em_init`, `init_js_em_api` and `control_em`.

* C strings are lists of characters (the bytes before the terminating NUL).
* `NULL` pointers are `none`.
* The operating system, GLib and JavaScriptCore are not part of `em.c`.  Their
  results are explicit inputs (`Env`, the `Endpoint` read by `control_em`, the
  behaviour of the script's `input` object) and their effects are explicit
  fields of the process state `World`, or events of a trace.
-/

namespace Uzbl

/-! ## C strings -/

/-- A NUL-terminated C string, without its terminator. -/
abbrev CString := List Char

/-- Model of `strlen`. -/
def strlen (s : CString) : Nat := s.length

/-- Model of `strchr (s, c)`: the suffix of `s` that starts at the first
occurrence of `c`, `none` (NULL) when `c` does not occur. -/
def strchr : CString → Char → Option CString
  | [], _ => none
  | x :: xs, c => if x = c then some (x :: xs) else strchr xs c

/-- Pointer arithmetic `s + n` on a C string.  The result is a C string only
while the pointer stays inside the array (`n ≤ strlen s`, the last position
being the terminator); beyond it the read is undefined, which is `none`. -/
def ptr_add (s : CString) (n : Nat) : Option CString :=
  if n ≤ strlen s then some (s.drop n) else none

/-- Model of `strncpy (dst, src, n)`, as the C string left in a `dst` of
exactly `n` bytes that is afterwards read with a length of `n`: the first `n`
bytes of `src` (shorter sources are NUL padded, longer ones are cut). -/
def strncpy (src : CString) (n : Nat) : CString := src.take n

/-- Model of `JSStringCreateWithUTF8CString`: a NULL pointer gives the empty
string, any other pointer the bytes up to the first NUL. -/
def JSStringCreateWithUTF8CString (s : Option (List Char)) : String :=
  match s with
  | none => ""
  | some bytes => String.mk (bytes.takeWhile (fun c => c ≠ Char.ofNat 0))

/-! ## JavaScriptCore objects -/

abbrev JSObjectRef := Nat

inductive JSValue where
  | undefined
  | string (s : String)
  | object (ref : JSObjectRef)
deriving DecidableEq

/-- A `JSValueRef`; `none` is the NULL pointer. -/
abbrev JSValueRef := Option JSValue

def kJSPropertyAttributeReadOnly : Nat := 2
def kJSPropertyAttributeDontEnum : Nat := 4
def kJSPropertyAttributeDontDelete : Nat := 8

structure JSProperty where
  name : String
  value : JSValue
  attributes : Nat
deriving DecidableEq

/-- An object of the engine: the name of its class (`none` for the default
class), the C callback its class installs as `callAsFunction` (`none` when the
object cannot be called) and its own properties. -/
structure JSObject where
  class_name : Option String
  callAsFunction : Option String
  properties : List JSProperty
deriving DecidableEq

/-- The objects of the context group; a `JSObjectRef` is an index. -/
abbrev JSHeap := List JSObject

/-- A global context, known by its global object. -/
structure JSGlobalContext where
  global : JSObjectRef
deriving DecidableEq

/-- A `JSGlobalContextRef`; `none` is the NULL pointer. -/
abbrev JSGlobalContextRef := Option JSGlobalContext

/-- Model of `JSContextGetGlobalObject`.  The API documents nothing for a NULL
context; here the result is then NULL. -/
def JSContextGetGlobalObject (ctx : JSGlobalContextRef) : Option JSObjectRef :=
  ctx.map (fun c => c.global)

/-- Model of `JSObjectMake (ctx, class, NULL)`: a fresh object without
properties.  The API documents nothing for a NULL context; here the result is
then NULL and nothing is allocated. -/
def JSObjectMake (ctx : JSGlobalContextRef) (heap : JSHeap)
    (class_name callAsFunction : Option String) : JSHeap × Option JSObjectRef :=
  match ctx with
  | none => (heap, none)
  | some _ => (heap ++ [⟨class_name, callAsFunction, []⟩], some heap.length)

/-- Model of `JSValueMakeString`.  The API documents nothing for a NULL
context; here the result is then NULL. -/
def JSValueMakeString (ctx : JSGlobalContextRef) (s : String) : JSValueRef :=
  match ctx with
  | none => none
  | some _ => some (JSValue.string s)

/-- The value of the own property `name`, if there is one. -/
def getProperty : List JSProperty → String → Option JSValue
  | [], _ => none
  | p :: ps, name => if p.name = name then some p.value else getProperty ps name

/-- Model of `JSObjectSetProperty` on a property list: a missing property is
defined with the given attributes, an existing one is assigned unless it is
read-only. -/
def setProperty : List JSProperty → String → JSValue → Nat → List JSProperty
  | [], name, val, attrs => [⟨name, val, attrs⟩]
  | p :: ps, name, val, attrs =>
    if p.name = name then
      (if p.attributes &&& kJSPropertyAttributeReadOnly = 0 then
        ⟨p.name, val, p.attributes⟩ :: ps
      else p :: ps)
    else p :: setProperty ps name val attrs

/-- Apply `f` to the object stored at `ref`. -/
def updateObject : JSHeap → JSObjectRef → (JSObject → JSObject) → JSHeap
  | [], _, _ => []
  | o :: os, 0, f => f o :: os
  | o :: os, n + 1, f => o :: updateObject os n f

/-- Modelled from the spec: `uzbl_js_set` (a helper of js.c, which is not at
hand) installs on `obj` the property `name` with value `val` and the given
attributes.  The spec says nothing of NULL arguments; here they leave the heap
as it is. -/
def uzbl_js_set (ctx : JSGlobalContextRef) (heap : JSHeap) (obj : Option JSObjectRef)
    (name : String) (val : JSValueRef) (attrs : Nat) : JSHeap :=
  match ctx, obj, val with
  | some _, some o, some v =>
    updateObject heap o (fun x => ⟨x.class_name, x.callAsFunction,
      setProperty x.properties name v attrs⟩)
  | _, _, _ => heap

/-! ## The static API table and `init_js_em_api` -/

/-- One `UzblEMAPI` row; the terminating row has NULL fields. -/
structure UzblEMAPI where
  name : Option String
  class_name : Option String
  callback : Option String
deriving DecidableEq

def builtin_em_api : List UzblEMAPI :=
  [ ⟨some "load", some "LoadEMAPI", some "em_load"⟩,
    ⟨some "reply", some "ReplyEMAPI", some "em_reply"⟩,
    ⟨none, none, none⟩ ]

/-- The `while (api->name)` loop of `init_js_em_api`, over the rows from `api`
on.  The namespace object `em_obj` is in scope but the body never uses it. -/
def init_js_em_api_loop (context : JSGlobalContextRef) (_em_obj : Option JSObjectRef) :
    List UzblEMAPI → JSHeap → JSHeap
  | [], heap => heap
  | api :: rest, heap =>
    match api.name with
    | none => heap
    | some api_name =>
      let (heap, api_obj) := JSObjectMake context heap api.class_name api.callback
      let name_val := JSValueMakeString context api_name
      let heap := uzbl_js_set context heap api_obj "name" name_val
        (kJSPropertyAttributeReadOnly ||| kJSPropertyAttributeDontDelete)
      let heap := uzbl_js_set context heap api_obj api_name (api_obj.map JSValue.object)
        (kJSPropertyAttributeReadOnly ||| kJSPropertyAttributeDontDelete)
      init_js_em_api_loop context _em_obj rest heap

/-- Model of `init_js_em_api (context, obj)`, returning the new heap and the
namespace object it made. -/
def init_js_em_api (context : JSGlobalContextRef) (heap : JSHeap) (obj : Option JSObjectRef) :
    JSHeap × Option JSObjectRef :=
  let (heap, em_obj) := JSObjectMake context heap none none
  let heap := init_js_em_api_loop context em_obj builtin_em_api heap
  let heap := uzbl_js_set context heap obj "em" (em_obj.map JSValue.object)
    (kJSPropertyAttributeReadOnly ||| kJSPropertyAttributeDontDelete)
  (heap, em_obj)

/-- The value of property `name` of the object at `ref`. -/
def objectProperty (heap : JSHeap) (ref : JSObjectRef) (name : String) : Option JSValue :=
  match heap[ref]? with
  | none => none
  | some o => getProperty o.properties name

/-- The names of the own properties of the object at `ref`. -/
def propertyNames (heap : JSHeap) (ref : JSObjectRef) : List String :=
  match heap[ref]? with
  | none => []
  | some o => o.properties.map (fun p => p.name)

/-! ## GLib channels, sources and threads -/

/-- A `GIOChannel` over a descriptor.  `close_on_unref` is GLib's flag of the
same name: only when it is set does dropping the last reference close the
descriptor. -/
structure GIOChannel where
  fd : Nat
  ref_count : Nat
  close_on_unref : Bool
deriving DecidableEq

/-- Model of `g_io_channel_unix_new (fd)`: one reference, and `close_on_unref`
is FALSE.  GLib documents the default of that flag as "TRUE for channels
created by g_io_channel_new_file (), and FALSE for all other channels". -/
def g_io_channel_unix_new (fd : Nat) : GIOChannel := ⟨fd, 1, false⟩

/-- Model of `g_io_channel_ref`. -/
def g_io_channel_ref (chan : GIOChannel) : GIOChannel :=
  ⟨chan.fd, chan.ref_count + 1, chan.close_on_unref⟩

/-- Model of `close (fd)` on the set of open descriptors. -/
def close (open_fds : Finset Nat) (fd : Nat) : Finset Nat := open_fds.erase fd

/-- Model of `g_io_channel_unref`: the open descriptors afterwards and the
channel, if it is still alive.  The last reference frees the channel, and
closes its descriptor only if `close_on_unref` is set. -/
def g_io_channel_unref (open_fds : Finset Nat) (chan : GIOChannel) :
    Finset Nat × Option GIOChannel :=
  if chan.ref_count ≤ 1 then
    ((if chan.close_on_unref then close open_fds chan.fd else open_fds), none)
  else
    (open_fds, some ⟨chan.fd, chan.ref_count - 1, chan.close_on_unref⟩)

def G_IO_IN : Nat := 1
def G_IO_HUP : Nat := 16

/-- A watch source: its name, the channel it holds a reference to, the
conditions it waits for and the name of its callback. -/
structure GSource where
  name : String
  channel : Option GIOChannel
  condition : Nat
  callback : String
deriving DecidableEq

/-- A `GMainContext`, as the sources attached to it. -/
structure GMainContext where
  sources : List GSource
deriving DecidableEq

/-- A thread made by `g_thread_new`: its name and the function it runs. -/
structure GThread where
  name : String
  func : String
deriving DecidableEq

/-! ## Process state -/

/-- Model of `struct _UzblEM`; NULL or not yet assigned fields are `none`. -/
structure UzblEM where
  js_ctx : JSGlobalContextRef
  em_ctx : Option GMainContext
  em_loop : Option Nat
  em_thread : Option GThread
deriving DecidableEq

/-- What `uzbl_em_init` can read or change: the global `uzbl.em`, the host
context `uzbl.state.jscontext`, the engine's objects, the open descriptors of
the process, its threads, and the addresses handed to `connect` so far. -/
structure World where
  em : Option UzblEM
  jscontext : JSGlobalContextRef
  heap : JSHeap
  open_fds : Finset Nat
  threads : List GThread
  connects : List (Nat × CString)
deriving DecidableEq

/-- The results of the system and engine calls made by `uzbl_em_init`:
`socketpair` (return value and the two descriptors it opened when it
succeeded), the two `connect` calls, and whether
`JSGlobalContextCreateInGroup` yields a context. -/
structure Env where
  socketpair_ret : Int
  sockfd : Nat × Nat
  connect0_ret : Int
  connect1_ret : Int
  context_created : Bool
deriving DecidableEq

/-- Model of `JSGlobalContextCreateInGroup (group, NULL)`: a new context with
a fresh global object, or NULL (nothing allocated) when creation fails. -/
def JSGlobalContextCreateInGroup (created : Bool) (heap : JSHeap) :
    JSHeap × JSGlobalContextRef :=
  if created then (heap ++ [⟨none, none, []⟩], some ⟨heap.length⟩) else (heap, none)

/-- Model of `em_load_initial_script`: the body is empty. -/
def em_load_initial_script (_script : CString) (w : World) : World := w

/-- Model of `uzbl_em_init (path)`, statement by statement.  The result is
`none` when the call reads past the end of `path` (undefined behaviour);
otherwise the state afterwards and the returned channel (`none` for NULL).
`UZBL_EM_PREFIX` is the C constant of that name, which `em.c` uses and does
not define. -/
def uzbl_em_init (UZBL_EM_PREFIX : CString) (env : Env) (w : World) (path : CString) :
    Option (World × Option GIOChannel) :=
  -- if (uzbl.em) return NULL;
  if w.em.isSome then some (w, none) else
  let script := path
  -- path = strchr (path, '/'); if (!path) return NULL;
  match strchr path '/' with
  | none => some (w, none)
  | some path =>
    -- if (socketpair (AF_UNIX, SOCK_STREAM, 0, sockfd) < 0) return NULL;
    if env.socketpair_ret < 0 then some (w, none) else
    let sockfd := env.sockfd
    let w := { w with open_fds := insert sockfd.2 (insert sockfd.1 w.open_fds) }
    -- strncpy (local.sun_path, path + strlen (UZBL_EM_PREFIX), 108);
    match ptr_add path (strlen UZBL_EM_PREFIX) with
    | none => none
    | some src =>
      let sun_path := strncpy src 108
      -- if (!connect (sockfd[0], &local, sizeof (local)))
      let w := { w with connects := w.connects ++ [(sockfd.1, sun_path)] }
      if env.connect0_ret = 0 then
        let chan := g_io_channel_unix_new sockfd.1
        -- if (!connect (sockfd[1], &local, sizeof (local)))
        let w := { w with connects := w.connects ++ [(sockfd.2, sun_path)] }
        if env.connect1_ret = 0 then
          let local_chan := g_io_channel_unix_new sockfd.2
          -- uzbl.em = g_malloc (sizeof (UzblEM));
          let em : UzblEM := ⟨none, none, none, none⟩
          let (heap, js_ctx) := JSGlobalContextCreateInGroup env.context_created w.heap
          let em := { em with js_ctx := js_ctx }
          let uzbl_global := JSContextGetGlobalObject w.jscontext
          let em_global := JSContextGetGlobalObject em.js_ctx
          let heap := uzbl_js_set em.js_ctx heap em_global "uzbl"
            (uzbl_global.map JSValue.object)
            (kJSPropertyAttributeReadOnly ||| kJSPropertyAttributeDontDelete)
          let heap := (init_js_em_api em.js_ctx heap em_global).1
          let w := em_load_initial_script script { w with heap := heap }
          -- g_io_create_watch takes a reference of its own on the channel,
          -- g_io_channel_unref (local_chan) then drops the caller's
          let local_chan := g_io_channel_ref local_chan
          let (open_fds, local_chan) := g_io_channel_unref w.open_fds local_chan
          let source : GSource :=
            ⟨"Uzbl event manager listener", local_chan, G_IO_IN ||| G_IO_HUP, "control_em"⟩
          let em := { em with em_ctx := some ⟨[source]⟩ }
          let thread : GThread := ⟨"uzbl-em", "run_em"⟩
          let em := { em with em_thread := some thread }
          some ({ w with em := some em, open_fds := open_fds, threads := w.threads ++ [thread] },
            some chan)
        else
          -- g_io_channel_unref (chan); close (sockfd[1]); return NULL;
          let (open_fds, _) := g_io_channel_unref w.open_fds chan
          let open_fds := close open_fds sockfd.2
          some ({ w with open_fds := open_fds }, none)
      else
        -- close (sockfd[0]); close (sockfd[1]); return NULL;
        let open_fds := close w.open_fds sockfd.1
        let open_fds := close open_fds sockfd.2
        some ({ w with open_fds := open_fds }, none)

/-! ## The control loop: `control_em` -/

inductive GIOStatus where
  | G_IO_STATUS_ERROR
  | G_IO_STATUS_NORMAL
  | G_IO_STATUS_EOF
  | G_IO_STATUS_AGAIN
deriving DecidableEq

/-- The internal channel endpoint as its reader sees it: the characters the
peer wrote that were not read yet, whether the peer hung up, and whether a
read error is pending. -/
structure Endpoint where
  pending : List Char
  hup : Bool
  failed : Bool
deriving DecidableEq

/-- The characters GLib takes as the end of a line when no terminator is
configured: line feed, carriage return, the paragraph separator, NUL. -/
def isLineTerminator (c : Char) : Bool :=
  c = Char.ofNat 10 || c = Char.ofNat 13 || c = Char.ofNat 0x2029 || c = Char.ofNat 0

/-- The line scanner of `g_io_channel_read_line` with GLib's automatic
terminator detection (line feed, carriage return with an optional line feed,
the paragraph separator, an embedded NUL): the first line of the buffer WITH
its terminator, and the rest of the buffer.  `none` when the buffer holds no
complete line. -/
def read_line_scan : List Char → Option (List Char × List Char)
  | [] => none
  | c :: cs =>
    if c = Char.ofNat 13 then
      match cs with
      | [] => none
      | d :: ds => if d = Char.ofNat 10 then some ([c, d], ds) else some ([c], d :: ds)
    else if c = Char.ofNat 10 ∨ c = Char.ofNat 0x2029 ∨ c = Char.ofNat 0 then some ([c], cs)
    else
      match read_line_scan cs with
      | some (line, rest) => some (c :: line, rest)
      | none => none

/-- Model of `g_io_channel_read_line (gio, &line, NULL, NULL, NULL)` as GLib
documents it: the status, the line read "including the line terminator"
(NULL unless the status is NORMAL), and the endpoint afterwards. -/
def g_io_channel_read_line (gio : Endpoint) : GIOStatus × Option (List Char) × Endpoint :=
  if gio.failed then (GIOStatus.G_IO_STATUS_ERROR, none, gio) else
  match read_line_scan gio.pending with
  | some (line, rest) => (GIOStatus.G_IO_STATUS_NORMAL, some line, ⟨rest, gio.hup, gio.failed⟩)
  | none =>
    if gio.hup then
      (if gio.pending = [] then (GIOStatus.G_IO_STATUS_EOF, none, gio)
       else (GIOStatus.G_IO_STATUS_NORMAL, some gio.pending, ⟨[], gio.hup, gio.failed⟩))
    else (GIOStatus.G_IO_STATUS_AGAIN, none, gio)

/-- What calling a script function does: it returns a value or throws one. -/
inductive CallOutcome where
  | returned (v : JSValue)
  | threw (e : JSValue)
deriving DecidableEq

/-- An object of the child context as `control_em` uses it: `call` is its
behaviour when called as a function, `none` when the object is not callable. -/
structure ScriptObject where
  call : Option (List JSValue → CallOutcome)

/-- The child scripting context `uzbl.em->js_ctx`: the properties of its
global object. -/
structure ChildContext where
  global : List (String × ScriptObject)

inductive JSType where
  | kJSTypeUndefined
  | kJSTypeObject
deriving DecidableEq

/-- Modelled from the spec: `uzbl_js_object` (a helper of js.c, which is not
at hand) looks the name up on the global object of the context; an absent
property gives a value of type undefined, here `none`. -/
def uzbl_js_object (ctx : ChildContext) (name : String) : Option ScriptObject :=
  match ctx.global.find? (fun p => p.1 = name) with
  | none => none
  | some p => some p.2

/-- Model of `JSValueGetType` on the result of `uzbl_js_object`. -/
def JSValueGetType (v : Option ScriptObject) : JSType :=
  match v with
  | none => JSType.kJSTypeUndefined
  | some _ => JSType.kJSTypeObject

/-- Model of `JSObjectCallAsFunction (ctx, object, NULL, argc, args, &exc)`:
the returned value and the contents of the slot `exc` afterwards.  The result
is NULL when the function throws, and then the slot receives the exception;
it is also NULL when the object is not a function, and then the slot is not
written.  A successful call does not write the slot either. -/
def JSObjectCallAsFunction (object : Option ScriptObject) (args : List JSValue)
    (exc : JSValueRef) : JSValueRef × JSValueRef :=
  match object with
  | none => (none, exc)
  | some o =>
    match o.call with
    | none => (none, exc)
    | some f =>
      match f args with
      | CallOutcome.returned v => (some v, exc)
      | CallOutcome.threw e => (none, some e)

/-- What `control_em` does to the world outside its own variables. -/
inductive EMEvent where
  | lookup (name : String)
  | call (args : List JSValue)
  | debug (message : String) (value : JSValueRef)
deriving DecidableEq

/-- Model of `control_em (gio, condition, data)`, statement by statement: the
returned `gboolean`, the events of the call in order, and the endpoint
afterwards.  `exc0` is what the local `exc` holds when the function starts:
the declaration `JSValueRef exc;` has no initialiser. -/
def control_em (ctx : ChildContext) (gio : Endpoint) (exc0 : JSValueRef) :
    Bool × List EMEvent × Endpoint :=
  let (ret, ctl_line, gio) := g_io_channel_read_line gio
  if ret = GIOStatus.G_IO_STATUS_ERROR ∨ ret = GIOStatus.G_IO_STATUS_EOF then
    (false, [], gio)
  else
    let input_call := uzbl_js_object ctx "input"
    let trace := [EMEvent.lookup "input"]
    if JSValueGetType input_call = JSType.kJSTypeUndefined then
      (false, trace ++ [EMEvent.debug "failed to get entry point for internal EM" none], gio)
    else
      let input_str := JSStringCreateWithUTF8CString ctl_line
      let input := JSValue.string input_str
      let args := [input]
      let (js_ret, exc) := JSObjectCallAsFunction input_call args exc0
      let trace := trace ++ [EMEvent.call args]
      match js_ret with
      | none =>
        match exc with
        | some e =>
          (true, trace ++
            [EMEvent.debug "entry point for internal EM threw an exception: %s" (some e)], gio)
        | none =>
          (false, trace ++
            [EMEvent.debug "entry point for internal EM is not a function" none], gio)
      | some _ => (true, trace, gio)

/-- One readiness notification of the watch: the endpoint as the callback finds
it and the residue in the callback's `exc` slot. -/
structure Wakeup where
  gio : Endpoint
  exc0 : JSValueRef

/-- Model of `g_main_loop_run` in `run_em`, for the single watch attached to
the loop: GLib calls the callback once per notification and removes the
source, for good, the first time the callback returns FALSE.  The result is
the sequence of events of all the calls made. -/
def g_main_loop_run (ctx : ChildContext) : List Wakeup → List EMEvent
  | [] => []
  | k :: ks =>
    match control_em ctx k.gio k.exc0 with
    | (true, events, _) => events ++ g_main_loop_run ctx ks
    | (false, events, _) => events

/-- The argument lists of the calls of `input` in a sequence of events. -/
def calls : List EMEvent → List (List JSValue)
  | [] => []
  | EMEvent.call args :: es => args :: calls es
  | _ :: es => calls es

/-- The names looked up in a sequence of events. -/
def lookups : List EMEvent → List String
  | [] => []
  | EMEvent.lookup name :: es => name :: lookups es
  | _ :: es => lookups es

/-! ## What the kernel gives -/

/-- A script `input` that throws on the line `x` and returns on any other. -/
def sample_input : ScriptObject :=
  ⟨some (fun args => if args = [JSValue.string "x\n"] then
    CallOutcome.threw (JSValue.string "boom") else CallOutcome.returned JSValue.undefined)⟩

/-- A child context whose global object defines `input` as `sample_input`. -/
def sample_context : ChildContext := ⟨[("input", sample_input)]⟩

/-- A process without a Bridge instance: the host context with its global
object, and the three standard descriptors open. -/
def sample_world : World := ⟨none, some ⟨0⟩, [⟨none, none, []⟩], {0, 1, 2}, [], []⟩

/-- A process with a live Bridge instance: the pair of descriptors 3 and 4 is
open and the worker thread exists. -/
def sample_live_world : World :=
  ⟨some ⟨some ⟨1⟩, none, none, none⟩, some ⟨0⟩, [⟨none, none, []⟩, ⟨none, none, []⟩],
    {0, 1, 2, 3, 4}, [⟨"uzbl-em", "run_em"⟩], []⟩

/-- The global objects of the host context (0) and of a child context (1),
both still without properties. -/
def sample_heap : JSHeap := [⟨none, none, []⟩, ⟨none, none, []⟩]

/-! ## Facts about the string helpers -/

theorem strchr_eq_none_iff (s : CString) (c : Char) : strchr s c = none ↔ c ∉ s := by
  induction s with
  | nil => simp [strchr]
  | cons x xs ih =>
    by_cases h : x = c
    · simp [strchr, h]
    · have h' : ¬ c = x := fun e => h e.symm
      simp [strchr, h, h', ih]

theorem strchr_append_of_not_mem (p s : CString) (c : Char) (hp : c ∉ p) :
    strchr (p ++ c :: s) c = some (c :: s) := by
  induction p with
  | nil => simp [strchr]
  | cons x xs ih =>
    have hx : ¬ x = c := fun e => hp (by simp [e])
    have hxs : c ∉ xs := fun m => hp (by simp [m])
    simp [strchr, hx, ih hxs]

theorem strncpy_drop_ne (s : CString) (n k : Nat) (hn : 0 < n) (hs : s ≠ []) :
    strncpy (s.drop n) k ≠ s := by
  intro h
  have hl := congrArg List.length h
  have hpos : 0 < s.length := List.length_pos.mpr hs
  simp [strncpy] at hl
  omega

/-! ## `uzbl_em_init` -/

/-- C1: while a Bridge instance is live (`uzbl.em` is non-null), `uzbl_em_init`
returns NULL for every identifier and leaves the whole process state as it was:
the open descriptors, the engine's objects and contexts, the threads and the
instance itself. -/
theorem uzbl_em_init_already_running (P : CString) (env : Env) (w : World) (path : CString)
    (hlive : w.em ≠ none) :
    uzbl_em_init P env w path = some (w, none) := by
  cases hem : w.em with
  | none => exact absurd hem hlive
  | some e => simp [uzbl_em_init, hem]

theorem uzbl_em_init_already_running_witness :
    sample_live_world.em ≠ none ∧
    uzbl_em_init "em:".toList ⟨0, (5, 6), 0, 0, true⟩ sample_live_world
      "em:/tmp/sock".toList = some (sample_live_world, none) :=
  ⟨by decide, uzbl_em_init_already_running _ _ _ _ (by decide)⟩

/-- C9: with no live instance, an identifier without the separator `/` is
rejected: `uzbl_em_init` returns NULL and the process state is unchanged (no
instance, no descriptor opened, no thread spawned). -/
theorem uzbl_em_init_no_separator (P : CString) (env : Env) (w : World) (path : CString)
    (hem : w.em = none) (hsep : '/' ∉ path) :
    uzbl_em_init P env w path = some (w, none) := by
  have h := (strchr_eq_none_iff path '/').mpr hsep
  simp [uzbl_em_init, hem, h]

theorem uzbl_em_init_no_separator_witness :
    sample_world.em = none ∧
    '/' ∉ "em:sock".toList ∧
    uzbl_em_init "em:".toList ⟨0, (3, 4), 0, 0, true⟩ sample_world "em:sock".toList =
      some (sample_world, none) :=
  ⟨rfl, by decide, uzbl_em_init_no_separator _ _ _ _ rfl (by decide)⟩

/-- When the first `connect` fails both descriptors of the pair are closed
again: the open descriptors are those from before the call. -/
theorem uzbl_em_init_first_connect_failure (P : CString) (env : Env) (w : World)
    (path p src : CString) (hem : w.em = none) (hp : strchr path '/' = some p)
    (hsrc : ptr_add p (strlen P) = some src) (hsp : 0 ≤ env.socketpair_ret)
    (h0 : env.connect0_ret ≠ 0)
    (hfresh0 : env.sockfd.1 ∉ w.open_fds) (hfresh1 : env.sockfd.2 ∉ w.open_fds) :
    ∃ w', uzbl_em_init P env w path = some (w', none) ∧ w'.open_fds = w.open_fds ∧
      w'.em = none ∧ w'.threads = w.threads := by
  have hsp' : ¬ env.socketpair_ret < 0 := not_lt.mpr hsp
  refine ⟨_, by simp [uzbl_em_init, hem, hp, hsrc, hsp', h0]; rfl, ?_, ?_, ?_⟩
  · by_cases hne : env.sockfd.1 = env.sockfd.2
    · simp [close, hne, hfresh1]
    · have hne' : env.sockfd.2 ≠ env.sockfd.1 := fun e => hne e.symm
      simp [close, Finset.erase_insert_of_ne hne', hfresh0, hfresh1]
  · simp [hem]
  · simp

/-- The branch for a failing second `connect`, which is entered only after a
first `connect` that returned 0: it unreferences the channel around
`sockfd[0]`, which does not close it, and closes `sockfd[1]` alone.  Under
`kernel_results` no call gets there. -/
theorem uzbl_em_init_second_connect_branch (P : CString) (env : Env) (w : World)
    (path p src : CString) (hem : w.em = none) (hp : strchr path '/' = some p)
    (hsrc : ptr_add p (strlen P) = some src) (hsp : 0 ≤ env.socketpair_ret)
    (h0 : env.connect0_ret = 0) (h1 : env.connect1_ret ≠ 0)
    (hfresh0 : env.sockfd.1 ∉ w.open_fds) (hfresh1 : env.sockfd.2 ∉ w.open_fds)
    (hne : env.sockfd.1 ≠ env.sockfd.2) :
    ∃ w', uzbl_em_init P env w path = some (w', none) ∧
      w'.open_fds = insert env.sockfd.1 w.open_fds ∧ w'.open_fds ≠ w.open_fds := by
  have hsp' : ¬ env.socketpair_ret < 0 := not_lt.mpr hsp
  have hne' : env.sockfd.2 ≠ env.sockfd.1 := fun e => hne e.symm
  have hfds : close (g_io_channel_unref (insert env.sockfd.2 (insert env.sockfd.1 w.open_fds))
      (g_io_channel_unix_new env.sockfd.1)).1 env.sockfd.2 = insert env.sockfd.1 w.open_fds := by
    simp [close, g_io_channel_unref, g_io_channel_unix_new, hfresh1, hne']
  refine ⟨_, by simp [uzbl_em_init, hem, hp, hsrc, hsp', h0, h1]; rfl, hfds, ?_⟩
  rw [hfds]
  intro h
  exact hfresh0 (h ▸ Finset.mem_insert_self _ _)

/-- C7: the address dialled is not the socket path.  Let the identifier be a
marker `P` without `/`, not empty, followed by a socket path `S` that begins
with `/` and fits the 108-byte field with its terminator.  `uzbl_em_init`
first moves to the first `/`, which is the start of `S`, and then skips
`strlen (P)` more bytes: every `connect` made is given `S` without its first
`strlen (P)` bytes, which is never `S`. -/
theorem uzbl_em_init_dials_path_past_marker (P S : CString) (env : Env) (w : World)
    (hem : w.em = none) (hP : '/' ∉ P) (hne : P ≠ []) (hS : S.head? = some '/')
    (_hfit : strlen S < 108) (hin : strlen P ≤ strlen S) (hsp : 0 ≤ env.socketpair_ret) :
    (∃ w' r, uzbl_em_init P env w (P ++ S) = some (w', r) ∧
      (w'.connects = w.connects ++ [(env.sockfd.1, strncpy (S.drop (strlen P)) 108)] ∨
       w'.connects = w.connects ++ [(env.sockfd.1, strncpy (S.drop (strlen P)) 108),
          (env.sockfd.2, strncpy (S.drop (strlen P)) 108)])) ∧
      strncpy (S.drop (strlen P)) 108 ≠ S := by
  have hsp' : ¬ env.socketpair_ret < 0 := not_lt.mpr hsp
  obtain ⟨t, rfl⟩ : ∃ t, S = '/' :: t := by
    cases S with
    | nil => simp at hS
    | cons c t => simp at hS; exact ⟨t, by rw [hS]⟩
  have hp := strchr_append_of_not_mem P t '/' hP
  have hsrc : ptr_add ('/' :: t) (strlen P) = some (('/' :: t).drop (strlen P)) := by
    simp [ptr_add, hin]
  have hpos : 0 < strlen P := List.length_pos.mpr hne
  have hneq := strncpy_drop_ne ('/' :: t) (strlen P) 108 hpos (by simp)
  refine ⟨?_, hneq⟩
  by_cases h0 : env.connect0_ret = 0
  · by_cases h1 : env.connect1_ret = 0
    · simp [uzbl_em_init, hem, hp, hsrc, hsp', h0, h1, em_load_initial_script]
    · simp [uzbl_em_init, hem, hp, hsrc, hsp', h0, h1]
  · simp [uzbl_em_init, hem, hp, hsrc, hsp', h0]

theorem uzbl_em_init_dials_path_past_marker_witness :
    (∃ w' r, uzbl_em_init "em:".toList ⟨0, (3, 4), 0, 0, true⟩ sample_world
        ("em:".toList ++ "/tmp/sock".toList) = some (w', r) ∧
      (w'.connects = [] ++ [(3, strncpy ("/tmp/sock".toList.drop (strlen "em:".toList)) 108)] ∨
       w'.connects = [] ++ [(3, strncpy ("/tmp/sock".toList.drop (strlen "em:".toList)) 108),
          (4, strncpy ("/tmp/sock".toList.drop (strlen "em:".toList)) 108)])) ∧
      strncpy ("/tmp/sock".toList.drop (strlen "em:".toList)) 108 ≠ "/tmp/sock".toList :=
  uzbl_em_init_dials_path_past_marker "em:".toList "/tmp/sock".toList ⟨0, (3, 4), 0, 0, true⟩
    sample_world rfl (by decide) (by decide) (by decide) (by decide) (by decide) (by decide)

/-- When the part of the identifier from its first `/` on is shorter than the
marker, the source of the `strncpy` lies past the end of the string: the call
has no defined result (the pair of descriptors is open by then). -/
theorem uzbl_em_init_reads_past_end (P : CString) (env : Env) (w : World) (path p : CString)
    (hem : w.em = none) (hp : strchr path '/' = some p) (hsp : 0 ≤ env.socketpair_ret)
    (hshort : strlen p < strlen P) :
    uzbl_em_init P env w path = none := by
  have hsp' : ¬ env.socketpair_ret < 0 := not_lt.mpr hsp
  have hsrc : ptr_add p (strlen P) = none := by simp [ptr_add, hshort]
  simp [uzbl_em_init, hem, hp, hsp', hsrc]

/-- A concrete case: with the marker `em:` and the identifier `em:/tmp/sock`,
both `connect` calls are given `p/sock`. -/
theorem uzbl_em_init_dials_example :
    ∃ w' r, uzbl_em_init "em:".toList ⟨0, (3, 4), 0, 0, true⟩ sample_world
        "em:/tmp/sock".toList = some (w', r) ∧
      w'.connects = [(3, "p/sock".toList), (4, "p/sock".toList)] :=
  ⟨_, _, rfl, by decide⟩

/-! ## Facts about the object heap -/

theorem updateObject_append_length (l r : JSHeap) (x : JSObject) (f : JSObject → JSObject) :
    updateObject (l ++ x :: r) l.length f = l ++ f x :: r := by
  induction l with
  | nil => simp [updateObject]
  | cons y ys ih => simp [updateObject, ih]

theorem updateObject_append_lt (l r : JSHeap) (i : Nat) (f : JSObject → JSObject)
    (hi : i < l.length) : updateObject (l ++ r) i f = updateObject l i f ++ r := by
  induction l generalizing i with
  | nil => simp at hi
  | cons y ys ih =>
    cases i with
    | zero => simp [updateObject]
    | succ n => simp [updateObject, ih n (by simpa using hi)]

theorem updateObject_length (l : JSHeap) (i : Nat) (f : JSObject → JSObject) :
    (updateObject l i f).length = l.length := by
  induction l generalizing i with
  | nil => simp [updateObject]
  | cons y ys ih =>
    cases i with
    | zero => simp [updateObject]
    | succ n => simp [updateObject, ih n]

theorem updateObject_get (l : JSHeap) (i : Nat) (f : JSObject → JSObject) :
    (updateObject l i f)[i]? = (l[i]?).map f := by
  induction l generalizing i with
  | nil => simp [updateObject]
  | cons y ys ih =>
    cases i with
    | zero => simp [updateObject]
    | succ n => simpa [updateObject] using ih n

theorem getProperty_setProperty_of_none (ps : List JSProperty) (name : String) (v : JSValue)
    (attrs : Nat) (h : getProperty ps name = none) :
    getProperty (setProperty ps name v attrs) name = some v := by
  induction ps with
  | nil => simp [setProperty, getProperty]
  | cons p ps ih =>
    by_cases hp : p.name = name
    · simp [getProperty, hp] at h
    · simp [getProperty, hp] at h
      simp [setProperty, getProperty, hp, ih h]

/-- One turn of the loop of `init_js_em_api` on a fresh callable object: both
properties are set on the callable object itself. -/
theorem api_object_step (c : JSGlobalContext) (h : JSHeap) (n : String)
    (cls cb : Option String) (a : Nat) :
    uzbl_js_set (some c)
      (uzbl_js_set (some c) (h ++ [⟨cls, cb, []⟩]) (some h.length) "name"
        (some (JSValue.string n)) a)
      (some h.length) n (some (JSValue.object h.length)) a =
    h ++ [⟨cls, cb, setProperty [⟨"name", JSValue.string n, a⟩] n (JSValue.object h.length) a⟩] := by
  simp only [uzbl_js_set]
  rw [updateObject_append_length h [], updateObject_append_length h []]
  simp [setProperty]

/-- The heap that `init_js_em_api` leaves, written out: the target object gets
the property `em`, and three objects are appended, the namespace object
WITHOUT properties and the two callable objects, each holding `name` and a
property of its own name that refers to itself. -/
theorem init_js_em_api_eq (c : JSGlobalContext) (heap : JSHeap) (o : JSObjectRef)
    (ho : o < heap.length) :
    init_js_em_api (some c) heap (some o) =
      (updateObject heap o (fun x => ⟨x.class_name, x.callAsFunction,
          setProperty x.properties "em" (JSValue.object heap.length) 10⟩) ++
        [⟨none, none, []⟩,
         ⟨some "LoadEMAPI", some "em_load",
           [⟨"name", JSValue.string "load", 10⟩,
            ⟨"load", JSValue.object (heap.length + 1), 10⟩]⟩,
         ⟨some "ReplyEMAPI", some "em_reply",
           [⟨"name", JSValue.string "reply", 10⟩,
            ⟨"reply", JSValue.object (heap.length + 2), 10⟩]⟩],
       some heap.length) := by
  simp only [init_js_em_api, builtin_em_api, init_js_em_api_loop, JSObjectMake,
    JSValueMakeString, Option.map]
  rw [api_object_step, api_object_step]
  simp only [uzbl_js_set]
  rw [List.append_assoc, List.append_assoc, updateObject_append_lt _ _ _ _ ho]
  have hn1 : ¬ "name" = "load" := by decide
  have hn2 : ¬ "name" = "reply" := by decide
  have ha : kJSPropertyAttributeReadOnly ||| kJSPropertyAttributeDontDelete = 10 := by decide
  simp [setProperty, hn1, hn2, ha]

/-- C2: the `em` namespace object is left without any property.  For every
heap and every target object that has no `em` property yet,
`init_js_em_api` installs as `em` a new object that has no properties at all,
so neither `load` nor `reply`: the loop sets each entry's property on the
callable object itself (`api_obj`), not on the namespace object.  The callable
objects do carry a `name` equal to their key. -/
theorem init_js_em_api_namespace_empty (c : JSGlobalContext) (heap : JSHeap) (o : JSObjectRef)
    (ho : o < heap.length) (hfresh : objectProperty heap o "em" = none) :
    (init_js_em_api (some c) heap (some o)).2 = some heap.length ∧
    objectProperty (init_js_em_api (some c) heap (some o)).1 o "em" =
      some (JSValue.object heap.length) ∧
    propertyNames (init_js_em_api (some c) heap (some o)).1 heap.length = [] ∧
    objectProperty (init_js_em_api (some c) heap (some o)).1 heap.length "load" = none ∧
    objectProperty (init_js_em_api (some c) heap (some o)).1 heap.length "reply" = none ∧
    objectProperty (init_js_em_api (some c) heap (some o)).1 (heap.length + 1) "load" =
      some (JSValue.object (heap.length + 1)) ∧
    objectProperty (init_js_em_api (some c) heap (some o)).1 (heap.length + 2) "reply" =
      some (JSValue.object (heap.length + 2)) ∧
    objectProperty (init_js_em_api (some c) heap (some o)).1 (heap.length + 1) "name" =
      some (JSValue.string "load") ∧
    objectProperty (init_js_em_api (some c) heap (some o)).1 (heap.length + 2) "name" =
      some (JSValue.string "reply") := by
  rw [init_js_em_api_eq c heap o ho]
  have hlen := updateObject_length heap o (fun x => ⟨x.class_name, x.callAsFunction,
          setProperty x.properties "em" (JSValue.object heap.length) 10⟩)
  have hget := updateObject_get heap o (fun x => ⟨x.class_name, x.callAsFunction,
          setProperty x.properties "em" (JSValue.object heap.length) 10⟩)
  have hx : heap[o]? = some heap[o] := List.getElem?_eq_getElem ho
  have hx' : getProperty heap[o].properties "em" = none := by
    simpa [objectProperty, hx] using hfresh
  have hn1 : ¬ "name" = "load" := by decide
  have hn2 : ¬ "name" = "reply" := by decide
  refine ⟨rfl, ?_, ?_, ?_, ?_, ?_, ?_, ?_, ?_⟩
  · simp only [objectProperty]
    rw [List.getElem?_append_left (by rw [hlen]; exact ho), hget, hx]
    simp [getProperty_setProperty_of_none _ _ _ _ hx']
  · simp only [propertyNames]
    rw [List.getElem?_append_right (by simp [hlen]), hlen]
    simp
  all_goals
    simp only [objectProperty]
    rw [List.getElem?_append_right (by simp [hlen]), hlen]
    simp [getProperty, hn1, hn2]

theorem init_js_em_api_namespace_empty_witness :
    (init_js_em_api (some ⟨1⟩) sample_heap (some 1)).2 = some 2 ∧
    objectProperty (init_js_em_api (some ⟨1⟩) sample_heap (some 1)).1
      1 "em" = some (JSValue.object 2) ∧
    propertyNames (init_js_em_api (some ⟨1⟩) sample_heap (some 1)).1
      2 = [] ∧
    objectProperty (init_js_em_api (some ⟨1⟩) sample_heap (some 1)).1
      2 "load" = none ∧
    objectProperty (init_js_em_api (some ⟨1⟩) sample_heap (some 1)).1
      2 "reply" = none ∧
    objectProperty (init_js_em_api (some ⟨1⟩) sample_heap (some 1)).1
      (2 + 1) "load" = some (JSValue.object (2 + 1)) ∧
    objectProperty (init_js_em_api (some ⟨1⟩) sample_heap (some 1)).1
      (2 + 2) "reply" = some (JSValue.object (2 + 2)) ∧
    objectProperty (init_js_em_api (some ⟨1⟩) sample_heap (some 1)).1
      (2 + 1) "name" = some (JSValue.string "load") ∧
    objectProperty (init_js_em_api (some ⟨1⟩) sample_heap (some 1)).1
      (2 + 2) "name" = some (JSValue.string "reply") :=
  init_js_em_api_namespace_empty ⟨1⟩ sample_heap 1
    (by decide) (by decide)


/-! ## `control_em` -/

theorem calls_append (a b : List EMEvent) : calls (a ++ b) = calls a ++ calls b := by
  induction a with
  | nil => simp [calls]
  | cons e es ih => cases e <;> simp [calls, ih]

/-- A buffer that starts with terminator-free text followed by a line feed
is scanned into that text with the line feed, and the rest. -/
theorem read_line_scan_line (line rest : List Char)
    (hline : ∀ c ∈ line, isLineTerminator c = false) :
    read_line_scan (line ++ Char.ofNat 10 :: rest) = some (line ++ [Char.ofNat 10], rest) := by
  induction line with
  | nil =>
    have h : ¬ Char.ofNat 10 = Char.ofNat 13 := by decide
    simp [read_line_scan, h]
  | cons c cs ih =>
    have hc := hline c (by simp)
    simp only [isLineTerminator, Bool.or_eq_false_iff, decide_eq_false_iff_not] at hc
    obtain ⟨⟨⟨h10, h13⟩, hps⟩, h0⟩ := hc
    have ih' := ih (fun d hd => hline d (by simp [hd]))
    simp [read_line_scan, h10, h13, hps, h0, ih']

/-- Terminator-free text followed by a line feed holds no NUL, so the engine
string made from it is the whole text, line feed included. -/
theorem JSStringCreateWithUTF8CString_line (line : List Char)
    (hline : ∀ c ∈ line, isLineTerminator c = false) :
    JSStringCreateWithUTF8CString (some (line ++ [Char.ofNat 10])) =
      String.mk (line ++ [Char.ofNat 10]) := by
  have h : (line ++ [Char.ofNat 10]).takeWhile (fun c => c ≠ Char.ofNat 0) =
      line ++ [Char.ofNat 10] := by
    rw [List.takeWhile_eq_self_iff]
    intro c hc
    rcases List.mem_append.mp hc with hc | hc
    · have := hline c hc
      simp only [isLineTerminator, Bool.or_eq_false_iff, decide_eq_false_iff_not] at this
      simpa using this.2
    · simp at hc
      subst hc
      decide
  simp only [JSStringCreateWithUTF8CString]
  rw [h]

/-- Behaviour of `control_em` when the read fails or reports the end of the stream. -/
theorem control_em_of_closed (ctx : ChildContext) (gio : Endpoint) (exc0 : JSValueRef)
    (hret : (g_io_channel_read_line gio).1 = GIOStatus.G_IO_STATUS_ERROR ∨
      (g_io_channel_read_line gio).1 = GIOStatus.G_IO_STATUS_EOF) :
    control_em ctx gio exc0 = (false, [], (g_io_channel_read_line gio).2.2) := by
  simp [control_em, hret]

/-- Behaviour of `control_em` when a line was read and `input` is absent. -/
theorem control_em_of_absent (ctx : ChildContext) (gio gio' : Endpoint) (exc0 : JSValueRef)
    (line : List Char)
    (hread : g_io_channel_read_line gio = (GIOStatus.G_IO_STATUS_NORMAL, some line, gio'))
    (hin : uzbl_js_object ctx "input" = none) :
    control_em ctx gio exc0 =
      (false, [EMEvent.lookup "input",
        EMEvent.debug "failed to get entry point for internal EM" none], gio') := by
  simp [control_em, hread, hin, JSValueGetType]

/-- Behaviour of `control_em` when a line was read and the call of `input` returns. -/
theorem control_em_of_returned (ctx : ChildContext) (gio gio' : Endpoint) (exc0 : JSValueRef)
    (line : List Char) (obj : ScriptObject) (f : List JSValue → CallOutcome) (v : JSValue)
    (hread : g_io_channel_read_line gio = (GIOStatus.G_IO_STATUS_NORMAL, some line, gio'))
    (hin : uzbl_js_object ctx "input" = some obj) (hc : obj.call = some f)
    (hf : f [JSValue.string (JSStringCreateWithUTF8CString (some line))] =
      CallOutcome.returned v) :
    control_em ctx gio exc0 =
      (true, [EMEvent.lookup "input",
        EMEvent.call [JSValue.string (JSStringCreateWithUTF8CString (some line))]], gio') := by
  simp [control_em, hread, hin, JSValueGetType, JSObjectCallAsFunction, hc, hf]

/-- Behaviour of `control_em` when a line was read and the call of `input` throws. -/
theorem control_em_of_threw (ctx : ChildContext) (gio gio' : Endpoint) (exc0 : JSValueRef)
    (line : List Char) (obj : ScriptObject) (f : List JSValue → CallOutcome) (e : JSValue)
    (hread : g_io_channel_read_line gio = (GIOStatus.G_IO_STATUS_NORMAL, some line, gio'))
    (hin : uzbl_js_object ctx "input" = some obj) (hc : obj.call = some f)
    (hf : f [JSValue.string (JSStringCreateWithUTF8CString (some line))] =
      CallOutcome.threw e) :
    control_em ctx gio exc0 =
      (true, [EMEvent.lookup "input",
        EMEvent.call [JSValue.string (JSStringCreateWithUTF8CString (some line))],
        EMEvent.debug "entry point for internal EM threw an exception: %s" (some e)], gio') := by
  simp [control_em, hread, hin, JSValueGetType, JSObjectCallAsFunction, hc, hf]

/-- Behaviour of `control_em` when a line was read and `input` is not callable: the result
is decided by what the slot `exc` held before the call. -/
theorem control_em_of_not_callable (ctx : ChildContext) (gio gio' : Endpoint)
    (exc0 : JSValueRef) (line : List Char) (obj : ScriptObject)
    (hread : g_io_channel_read_line gio = (GIOStatus.G_IO_STATUS_NORMAL, some line, gio'))
    (hin : uzbl_js_object ctx "input" = some obj) (hc : obj.call = none) :
    control_em ctx gio exc0 =
      match exc0 with
      | some g =>
        (true, [EMEvent.lookup "input",
          EMEvent.call [JSValue.string (JSStringCreateWithUTF8CString (some line))],
          EMEvent.debug "entry point for internal EM threw an exception: %s" (some g)], gio')
      | none =>
        (false, [EMEvent.lookup "input",
          EMEvent.call [JSValue.string (JSStringCreateWithUTF8CString (some line))],
          EMEvent.debug "entry point for internal EM is not a function" none], gio') := by
  cases exc0 <;> simp [control_em, hread, hin, JSValueGetType, JSObjectCallAsFunction, hc]

/-- What `control_em` does once a line was read and `input` is there: the call
is made with the line as its only argument, whatever comes of it. -/
theorem control_em_dispatch (ctx : ChildContext) (gio gio' : Endpoint) (exc0 : JSValueRef)
    (line : List Char) (obj : ScriptObject)
    (hread : g_io_channel_read_line gio = (GIOStatus.G_IO_STATUS_NORMAL, some line, gio'))
    (hin : uzbl_js_object ctx "input" = some obj) :
    calls (control_em ctx gio exc0).2.1 =
      [[JSValue.string (JSStringCreateWithUTF8CString (some line))]] ∧
    (control_em ctx gio exc0).2.2 = gio' := by
  cases hc : obj.call with
  | none =>
    rw [control_em_of_not_callable ctx gio gio' exc0 line obj hread hin hc]
    cases exc0 <;> simp [calls]
  | some f =>
    cases hf : f [JSValue.string (JSStringCreateWithUTF8CString (some line))] with
    | returned v =>
      rw [control_em_of_returned ctx gio gio' exc0 line obj f v hread hin hc hf]
      simp [calls]
    | threw e =>
      rw [control_em_of_threw ctx gio gio' exc0 line obj f e hread hin hc hf]
      simp [calls]

/-- C3, the claim refuted at a concrete input: the bytes `a`, line feed on the
channel make `control_em` call `input` with the two-character string made of
`a` and the line feed, not with the string `a`. -/
theorem control_em_newline_example :
    calls (control_em ⟨[("input", ⟨some (fun _ => CallOutcome.returned JSValue.undefined)⟩)]⟩
      ⟨['a', Char.ofNat 10], false, false⟩ none).2.1 = [[JSValue.string "a\n"]] ∧
    calls (control_em ⟨[("input", ⟨some (fun _ => CallOutcome.returned JSValue.undefined)⟩)]⟩
      ⟨['a', Char.ofNat 10], false, false⟩ none).2.1 ≠ [[JSValue.string "a"]] := by
  decide

/-- C3 as amended: for every line-feed terminated line at the head of the
channel (text without terminator characters, then a line feed), while `input`
is present, `control_em` calls `input` exactly once, with exactly one
argument: the string equal to the line just read INCLUDING its terminating
line feed.  The line is consumed from the channel. -/
theorem control_em_passes_line_with_newline (ctx : ChildContext) (obj : ScriptObject)
    (line rest : List Char) (hup : Bool) (exc0 : JSValueRef)
    (hin : uzbl_js_object ctx "input" = some obj)
    (hline : ∀ c ∈ line, isLineTerminator c = false) :
    calls (control_em ctx ⟨line ++ Char.ofNat 10 :: rest, hup, false⟩ exc0).2.1 =
      [[JSValue.string (String.mk (line ++ [Char.ofNat 10]))]] ∧
    (control_em ctx ⟨line ++ Char.ofNat 10 :: rest, hup, false⟩ exc0).2.2 =
      ⟨rest, hup, false⟩ := by
  have hread : g_io_channel_read_line ⟨line ++ Char.ofNat 10 :: rest, hup, false⟩ =
      (GIOStatus.G_IO_STATUS_NORMAL, some (line ++ [Char.ofNat 10]), ⟨rest, hup, false⟩) := by
    simp [g_io_channel_read_line, read_line_scan_line line rest hline]
  have h := control_em_dispatch ctx _ _ exc0 _ obj hread hin
  rw [JSStringCreateWithUTF8CString_line line hline] at h
  exact h

theorem control_em_passes_line_with_newline_witness :
    calls (control_em ⟨[("input", ⟨some (fun _ => CallOutcome.returned JSValue.undefined)⟩)]⟩
      ⟨['a'] ++ Char.ofNat 10 :: ['b', Char.ofNat 10], false, false⟩ none).2.1 =
      [[JSValue.string (String.mk (['a'] ++ [Char.ofNat 10]))]] ∧
    (control_em ⟨[("input", ⟨some (fun _ => CallOutcome.returned JSValue.undefined)⟩)]⟩
      ⟨['a'] ++ Char.ofNat 10 :: ['b', Char.ofNat 10], false, false⟩ none).2.2 =
      ⟨['b', Char.ofNat 10], false, false⟩ :=
  control_em_passes_line_with_newline
    ⟨[("input", ⟨some (fun _ => CallOutcome.returned JSValue.undefined)⟩)]⟩
    ⟨some (fun _ => CallOutcome.returned JSValue.undefined)⟩ ['a'] ['b', Char.ofNat 10]
    false none rfl (by decide)


/-- C4: when the call of `input` for a line throws (no value is returned and
the exception slot is set), `control_em` reports the exception and returns
TRUE.  The loop therefore goes on with the next notification, and when that
one delivers a line, `input` is called with it as well. -/
theorem control_em_exception_keeps_loop (ctx : ChildContext) (gio gio' : Endpoint)
    (exc0 : JSValueRef) (line : List Char) (obj : ScriptObject)
    (f : List JSValue → CallOutcome) (e : JSValue)
    (hread : g_io_channel_read_line gio = (GIOStatus.G_IO_STATUS_NORMAL, some line, gio'))
    (hin : uzbl_js_object ctx "input" = some obj) (hc : obj.call = some f)
    (hf : f [JSValue.string (JSStringCreateWithUTF8CString (some line))] =
      CallOutcome.threw e) :
    control_em ctx gio exc0 =
      (true, [EMEvent.lookup "input",
        EMEvent.call [JSValue.string (JSStringCreateWithUTF8CString (some line))],
        EMEvent.debug "entry point for internal EM threw an exception: %s" (some e)], gio') ∧
    (∀ (next : Wakeup) (rest : List Wakeup),
      g_main_loop_run ctx (⟨gio, exc0⟩ :: next :: rest) =
        [EMEvent.lookup "input",
          EMEvent.call [JSValue.string (JSStringCreateWithUTF8CString (some line))],
          EMEvent.debug "entry point for internal EM threw an exception: %s" (some e)] ++
        g_main_loop_run ctx (next :: rest)) ∧
    (∀ (next : Wakeup) (rest : List Wakeup) (line2 : List Char) (gio2 : Endpoint),
      g_io_channel_read_line next.gio = (GIOStatus.G_IO_STATUS_NORMAL, some line2, gio2) →
      [JSValue.string (JSStringCreateWithUTF8CString (some line2))] ∈
        calls (g_main_loop_run ctx (⟨gio, exc0⟩ :: next :: rest))) := by
  have h := control_em_of_threw ctx gio gio' exc0 line obj f e hread hin hc hf
  have hrun : ∀ (next : Wakeup) (rest : List Wakeup),
      g_main_loop_run ctx (⟨gio, exc0⟩ :: next :: rest) =
        [EMEvent.lookup "input",
          EMEvent.call [JSValue.string (JSStringCreateWithUTF8CString (some line))],
          EMEvent.debug "entry point for internal EM threw an exception: %s" (some e)] ++
        g_main_loop_run ctx (next :: rest) := by
    intro next rest
    conv_lhs => unfold g_main_loop_run
    simp only [h]
  refine ⟨h, hrun, ?_⟩
  intro next rest line2 gio2 hread2
  rw [hrun next rest, calls_append]
  apply List.mem_append_right
  have hd := (control_em_dispatch ctx next.gio gio2 next.exc0 line2 obj hread2 hin).1
  unfold g_main_loop_run
  rcases hk : control_em ctx next.gio next.exc0 with ⟨keep, events, gio3⟩
  rw [hk] at hd
  simp only at hd
  cases keep
  · simp [hd]
  · simp [calls_append, hd]

theorem control_em_exception_keeps_loop_witness :
    control_em sample_context ⟨['x', Char.ofNat 10], false, false⟩ none =
      (true, [EMEvent.lookup "input",
        EMEvent.call [JSValue.string (JSStringCreateWithUTF8CString (some ['x', Char.ofNat 10]))],
        EMEvent.debug "entry point for internal EM threw an exception: %s"
          (some (JSValue.string "boom"))], ⟨[], false, false⟩) ∧
    [JSValue.string (JSStringCreateWithUTF8CString (some ['y', Char.ofNat 10]))] ∈
      calls (g_main_loop_run sample_context
        (⟨⟨['x', Char.ofNat 10], false, false⟩, none⟩ ::
          ⟨⟨['y', Char.ofNat 10], false, false⟩, none⟩ :: [])) :=
  ⟨(control_em_exception_keeps_loop sample_context ⟨['x', Char.ofNat 10], false, false⟩
      ⟨[], false, false⟩ none ['x', Char.ofNat 10] sample_input
      (fun args => if args = [JSValue.string "x\n"] then
        CallOutcome.threw (JSValue.string "boom") else CallOutcome.returned JSValue.undefined)
      (JSValue.string "boom") (by decide) rfl rfl (by decide)).1,
   (control_em_exception_keeps_loop sample_context ⟨['x', Char.ofNat 10], false, false⟩
      ⟨[], false, false⟩ none ['x', Char.ofNat 10] sample_input
      (fun args => if args = [JSValue.string "x\n"] then
        CallOutcome.threw (JSValue.string "boom") else CallOutcome.returned JSValue.undefined)
      (JSValue.string "boom") (by decide) rfl rfl (by decide)).2.2
      ⟨⟨['y', Char.ofNat 10], false, false⟩, none⟩ [] ['y', Char.ofNat 10] ⟨[], false, false⟩
      (by decide)⟩

/-- C6: when the read reports end-of-stream or an error, `control_em` returns
FALSE without any event: `input` is neither looked up nor called.  The watch
is removed, so the loop makes no further call however many notifications
would follow. -/
theorem control_em_hangup_stops (ctx : ChildContext) (gio : Endpoint) (exc0 : JSValueRef)
    (hret : (g_io_channel_read_line gio).1 = GIOStatus.G_IO_STATUS_EOF ∨
      (g_io_channel_read_line gio).1 = GIOStatus.G_IO_STATUS_ERROR) :
    (control_em ctx gio exc0).1 = false ∧
    (control_em ctx gio exc0).2.1 = [] ∧
    lookups (control_em ctx gio exc0).2.1 = [] ∧
    calls (control_em ctx gio exc0).2.1 = [] ∧
    ∀ rest : List Wakeup, g_main_loop_run ctx (⟨gio, exc0⟩ :: rest) = [] := by
  have h := control_em_of_closed ctx gio exc0 hret.symm
  refine ⟨by rw [h], by rw [h], by rw [h]; rfl, by rw [h]; rfl, ?_⟩
  intro rest
  unfold g_main_loop_run
  simp only [h]

theorem control_em_hangup_stops_witness :
    (control_em ⟨[("input", ⟨some (fun _ => CallOutcome.returned JSValue.undefined)⟩)]⟩
      ⟨[], true, false⟩ none).1 = false ∧
    (control_em ⟨[("input", ⟨some (fun _ => CallOutcome.returned JSValue.undefined)⟩)]⟩
      ⟨[], true, false⟩ none).2.1 = [] ∧
    lookups (control_em ⟨[("input", ⟨some (fun _ => CallOutcome.returned JSValue.undefined)⟩)]⟩
      ⟨[], true, false⟩ none).2.1 = [] ∧
    calls (control_em ⟨[("input", ⟨some (fun _ => CallOutcome.returned JSValue.undefined)⟩)]⟩
      ⟨[], true, false⟩ none).2.1 = [] ∧
    ∀ rest : List Wakeup,
      g_main_loop_run ⟨[("input", ⟨some (fun _ => CallOutcome.returned JSValue.undefined)⟩)]⟩
        (⟨⟨[], true, false⟩, none⟩ :: rest) = [] :=
  control_em_hangup_stops _ ⟨[], true, false⟩ none (Or.inl (by decide))

/-- C10: a leftover in the exception slot turns "not a function" into "threw".
When a line was read and `input` is present but not callable, the call
returns no value and writes no exception.  `exc` was never initialised, so a
non-NULL leftover `g` is taken for an exception: `control_em` reports it and
returns TRUE, where FALSE was due. -/
theorem control_em_not_callable_residue (ctx : ChildContext) (gio gio' : Endpoint)
    (line : List Char) (obj : ScriptObject) (g : JSValue)
    (hread : g_io_channel_read_line gio = (GIOStatus.G_IO_STATUS_NORMAL, some line, gio'))
    (hin : uzbl_js_object ctx "input" = some obj) (hc : obj.call = none) :
    control_em ctx gio (some g) =
      (true, [EMEvent.lookup "input",
        EMEvent.call [JSValue.string (JSStringCreateWithUTF8CString (some line))],
        EMEvent.debug "entry point for internal EM threw an exception: %s" (some g)], gio') := by
  rw [control_em_of_not_callable ctx gio gio' (some g) line obj hread hin hc]

theorem control_em_not_callable_residue_witness :
    control_em ⟨[("input", ⟨none⟩)]⟩ ⟨['x', Char.ofNat 10], false, false⟩
        (some JSValue.undefined) =
      (true, [EMEvent.lookup "input",
        EMEvent.call [JSValue.string (JSStringCreateWithUTF8CString (some ['x', Char.ofNat 10]))],
        EMEvent.debug "entry point for internal EM threw an exception: %s"
          (some JSValue.undefined)], ⟨[], false, false⟩) :=
  control_em_not_callable_residue ⟨[("input", ⟨none⟩)]⟩ ⟨['x', Char.ofNat 10], false, false⟩
    ⟨[], false, false⟩ ['x', Char.ofNat 10] ⟨none⟩ JSValue.undefined (by decide) rfl rfl

end Uzbl
